import Mathlib

/-!
Verification development for the PondoBro personal-finance client
(src/frontend/src/main.rs). The aggregation, formatting, local-store and
form-submission logic is embedded shallowly:

* Rust `i64` values are modelled as `Int`. Overflow is modelled explicitly
  only where a claim targets it (the currency formatter's `abs` calls and
  string-to-integer parsing); in the aggregation functions amounts are
  treated as unbounded integers.
* `f64` arithmetic (budget percent, goal progress) is modelled by exact
  rational arithmetic; the inputs are integers, `round` is modelled as
  rounding half away from zero (Rust `f64::round`) and `as i32`/`as i64`
  casts of finite values as truncation toward zero.
* Stateful event handlers become pure functions from the relevant page
  state (plus the network outcome, where a request is issued) to the next
  page state; browser local storage becomes an explicit read result
  (`Option String`) plus a structural decode function, and a `save` is
  modelled by returning the value that is written.
-/

namespace PondoBro

/-- Transaction (main.rs lines 8-15). -/
structure Transaction where
  id : Option Int
  date : String
  description : String
  category : String
  amount : Int
deriving DecidableEq

/-- AppSettings (main.rs lines 19-23). -/
structure AppSettings where
  currency_code : String
  currency_symbol : String
deriving DecidableEq

/-- Contribution (main.rs lines 1248-1253). -/
structure Contribution where
  date : String
  description : String
  amount : Int
deriving DecidableEq

/-- SavingGoalState (main.rs lines 1255-1261). -/
structure SavingGoalState where
  title : String
  target_amount : Int
  target_date : String
  contributions : List Contribution
deriving DecidableEq

/-- BudgetItem (main.rs lines 1292-1296). -/
structure BudgetItem where
  category : String
  limit : Int
deriving DecidableEq

/-- The body of the `POST /api/transactions` JSON payloads built by the
create flows (main.rs lines 454-459, 1074-1079, 1418-1423, 1666-1671). -/
structure TransactionPayload where
  date : String
  description : String
  category : String
  amount : Int
deriving DecidableEq

/-! ## i64 model -/

/-- Smallest `i64` value. -/
def intMin : Int := -(2 ^ 63)

/-- `i64::abs`. Overflows exactly at `i64::MIN`; release builds wrap (the
result is `i64::MIN` again), debug builds panic. This is the wrapping
(release) semantics. -/
def i64abs (x : Int) : Int := if x = intMin then intMin else |x|

/-- `i64::abs` under overflow-checked (debug) semantics: `none` is the
overflow panic at `i64::MIN`. -/
def i64abs? (x : Int) : Option Int := if x = intMin then none else some |x|

/-! ## String-to-i64 parsing (`str::parse::<i64>()`, used by every form) -/

/-- Accumulate decimal digits; any non-digit character fails. -/
def parseDigits (cs : List Char) : Option Nat :=
  cs.foldl
    (fun acc c =>
      acc.bind fun n => if c.isDigit then some (n * 10 + (c.toNat - 48)) else none)
    (some 0)

/-- `str::parse::<i64>()`: optional single sign, one or more decimal
digits, value within the i64 range; anything else is `Err` (`none`). -/
def parse_i64 (s : String) : Option Int :=
  let signAndDigits : Int × List Char :=
    match s.data with
    | '-' :: rest => (-1, rest)
    | '+' :: rest => (1, rest)
    | cs => (1, cs)
  match signAndDigits.2, parseDigits signAndDigits.2 with
  | [], _ => none
  | _, none => none
  | _, some n =>
      let v : Int := signAndDigits.1 * n
      if intMin ≤ v ∧ v ≤ 2 ^ 63 - 1 then some v else none

/-- `s.parse::<i64>().unwrap_or(0)` as all the forms use it. -/
def parse_or_zero (s : String) : Int := (parse_i64 s).getD 0

/-- Whitespace for `str::trim` (the ASCII whitespace characters; Rust also
trims other Unicode whitespace, which never reaches these forms). -/
def isWS (c : Char) : Bool := c = ' ' ∨ c = '\t' ∨ c = '\n' ∨ c = '\r'

/-- `str::trim`: drop leading and trailing whitespace. -/
def trimWS (s : String) : String :=
  String.mk (((s.data.dropWhile isWS).reverse.dropWhile isWS).reverse)

/-! ## CurrencyFormatter (main.rs lines 2200-2221) -/

/-- Decimal digit character. -/
def digitChar (n : Nat) : Char := Char.ofNat (48 + n % 10)

/-- Decimal digits of a natural number, least significant first, via fuel
(the fuel `n + 1` always suffices). -/
def natDigitsRevFuel : Nat → Nat → List Char
  | 0, _ => []
  | f + 1, n =>
      if n < 10 then [digitChar n]
      else digitChar (n % 10) :: natDigitsRevFuel f (n / 10)

/-- Decimal digits of a natural number, least significant first. -/
def natDigitsRev (n : Nat) : List Char := natDigitsRevFuel (n + 1) n

/-- `i64::to_string`: optional minus sign followed by the decimal digits of
the magnitude. -/
def int_to_string (x : Int) : String :=
  (if x < 0 then "-" else "") ++ String.mk (natDigitsRev x.natAbs).reverse

/-- The comma-insertion loop of `format_with_commas` (main.rs lines
2204-2209): walking the reversed digit characters, a comma is pushed
before every character whose index is a positive multiple of 3. -/
def comma_group : List Char → Nat → List Char
  | [], _ => []
  | c :: cs, i =>
      (if 0 < i ∧ i % 3 = 0 then [','] else []) ++ c :: comma_group cs (i + 1)

/-- format_with_commas (main.rs lines 2200-2216): group the digits of
`value.abs().to_string()` in threes from the least-significant end and
re-prefix the sign. The inner `value.abs()` wraps at `i64::MIN`. -/
def format_with_commas (value : Int) : String :=
  let is_negative := value < 0
  let s := (int_to_string (i64abs value)).data.reverse
  let formatted := String.mk (comma_group s 0).reverse
  if is_negative then "-" ++ formatted else formatted

/-- format_currency (main.rs lines 2218-2221):
`format!("{}{} {}.00", sign, symbol, format_with_commas(amount.abs()))`
with `sign = "-"` iff `amount < 0`. The `amount.abs()` wraps at
`i64::MIN`. -/
def format_currency (amount : Int) (symbol : String) : String :=
  let sign := if amount < 0 then "-" else ""
  sign ++ symbol ++ " " ++ format_with_commas (i64abs amount) ++ ".00"

/-- format_with_commas under overflow-checked (debug) semantics: the only
overflow site is `value.abs()`, which panics exactly at `i64::MIN`. -/
def format_with_commas_checked (value : Int) : Option String :=
  if value = intMin then none else some (format_with_commas value)

/-- format_currency under overflow-checked (debug) semantics: `none` when
either `abs` call panics, which happens exactly for `amount = i64::MIN`. -/
def format_currency_checked (amount : Int) (symbol : String) : Option String :=
  if amount = intMin then none
  else
    (format_with_commas_checked |amount|).map fun s =>
      (if amount < 0 then "-" else "") ++ symbol ++ " " ++ s ++ ".00"

/-- Spec-side grouping on a least-significant-first digit list: a comma
after every complete group of three digits that is followed by more
digits. Stated independently of the code's index loop, following the
spec's words ("thousands separators inserted every three digits from the
least-significant end"). -/
def group3_rev : List Char → List Char
  | a :: b :: c :: d :: rest => a :: b :: c :: ',' :: group3_rev (d :: rest)
  | short => short

/-- Spec-side grouped rendering of a magnitude. -/
def group_digits_spec (n : Nat) : String :=
  String.mk (group3_rev (natDigitsRev n)).reverse

/-- The format the spec (§4.4) and claim C6 describe: sign prefix iff
negative, then symbol, a space, the grouped digits of the absolute value
and the fixed suffix. -/
def format_currency_spec (amount : Int) (symbol : String) : String :=
  (if amount < 0 then "-" else "") ++ symbol ++ " " ++
    group_digits_spec amount.natAbs ++ ".00"

/-! ## Rounding helpers for the `f64` displays -/

/-- Rust `f64::round`: round half away from zero. -/
def roundAway (q : ℚ) : Int := if 0 ≤ q then ⌊q + 1 / 2⌋ else -⌊-q + 1 / 2⌋

/-- Rust `as i32` / `as i64` cast of a finite float: truncation toward
zero. -/
def truncQ (q : ℚ) : Int := if 0 ≤ q then ⌊q⌋ else ⌈q⌉

/-! ## Aggregator: category spend

The dashboard (main.rs lines 536-542) and the budget page (lines 794-808)
both fold the transaction list into a `HashMap<String, i64>`, adding
`tx.amount.abs()` to the entry for `tx.category` whenever
`tx.amount < 0`. The map is modelled as an association list whose entries
appear in first-seen order; `i64` overflow of `abs`/`+` is not modelled
here (amounts are unbounded `Int`). The budget page rebuilds the same
key-to-value mapping from its sorted vector (lines 852-854), so one model
serves both pages. -/

/-- One `*totals.entry(cat).or_insert(0) += amt` step: bump the first
entry with this key, or append a fresh entry. -/
def bumpEntry : List (String × Int) → String → Int → List (String × Int)
  | [], cat, amt => [(cat, amt)]
  | (c, v) :: rest, cat, amt =>
      if c = cat then (c, v + amt) :: rest else (c, v) :: bumpEntry rest cat amt

/-- The spend-by-category map derived from a transaction list. -/
def categoryTotals (txs : List Transaction) : List (String × Int) :=
  txs.foldl
    (fun m tx => if tx.amount < 0 then bumpEntry m tx.category |tx.amount| else m)
    []

/-- `spent_by_category.get(&cat).cloned().unwrap_or(0)` (main.rs lines
547, 552, 625, 928): the value of the first entry with this key, or 0
when absent (the map never holds two entries with one key). -/
def lookup_spent : List (String × Int) → String → Int
  | [], _ => 0
  | (c, v) :: rest, cat => if c = cat then v else lookup_spent rest cat

/-- The sum the spec describes for one category: `Σ |amount|` over exactly
the negative-amount transactions of that category. -/
def spendSum (txs : List Transaction) (cat : String) : Int :=
  ((txs.filter fun t => t.amount < 0 ∧ t.category = cat).map
      fun t => |t.amount|).sum

/-! ## Aggregator: budget status -/

/-- `percent = if limit > 0 { (spent as f64 / limit as f64 * 100.0).round()
as i64 } else { 0 }` (main.rs lines 627 and 930, identical on both
pages). -/
def percent_used (spent limit : Int) : Int :=
  if 0 < limit then roundAway ((spent : ℚ) / (limit : ℚ) * 100) else 0

/-- Dashboard per-budget remaining: `b.limit - spent` (main.rs line 626). -/
def dash_remaining (txs : List Transaction) (b : BudgetItem) : Int :=
  b.limit - lookup_spent (categoryTotals txs) b.category

/-- Budget-page per-budget remaining: `(b.limit - spent).max(0)` (main.rs
line 929). -/
def page_remaining (txs : List Transaction) (b : BudgetItem) : Int :=
  max (b.limit - lookup_spent (categoryTotals txs) b.category) 0

/-- Dashboard per-budget percent (main.rs line 627). -/
def dash_percent (txs : List Transaction) (b : BudgetItem) : Int :=
  percent_used (lookup_spent (categoryTotals txs) b.category) b.limit

/-- Budget-page per-budget percent (main.rs line 930). -/
def page_percent (txs : List Transaction) (b : BudgetItem) : Int :=
  percent_used (lookup_spent (categoryTotals txs) b.category) b.limit

/-- Dashboard overspent count: budgets whose spend exceeds their limit
(main.rs lines 550-553). -/
def overspent_count (txs : List Transaction) (budgets : List BudgetItem) : Nat :=
  (budgets.filter fun b =>
      b.limit < lookup_spent (categoryTotals txs) b.category).length

/-! ## Aggregator: goal progress -/

/-- `goal_saved` / `saved_so_far`: sum of the contribution amounts
(main.rs lines 555 and 1605). -/
def goal_saved (g : SavingGoalState) : Int :=
  (g.contributions.map fun c => c.amount).sum

/-- Dashboard goal progress (main.rs lines 556-560):
`(saved as f64 / target as f64).min(1.0)` when `target_amount > 0`,
else `0.0`. -/
def dash_goal_progress (g : SavingGoalState) : ℚ :=
  if 0 < g.target_amount then
    min ((goal_saved g : ℚ) / (g.target_amount : ℚ)) 1
  else 0

/-- Dashboard percent-complete display (main.rs lines 596-598):
`(goal_progress * 100.0) as i32`. -/
def dash_goal_percent (g : SavingGoalState) : Int :=
  truncQ (dash_goal_progress g * 100)

/-- Savings-page progress (main.rs lines 1606-1610):
`saved as f64 / target as f64` when `target_amount > 0`, else `0.0` —
with no clamping. Only the ring geometry (line 1613) applies
`progress.min(1.0)`. -/
def savings_progress (g : SavingGoalState) : ℚ :=
  if 0 < g.target_amount then (goal_saved g : ℚ) / (g.target_amount : ℚ)
  else 0

/-- Savings-page percent display (main.rs line 1785):
`(progress * 100.0).round() as i32`. -/
def savings_percent (g : SavingGoalState) : Int :=
  roundAway (savings_progress g * 100)

/-! ## LocalConfigStore loads (main.rs lines 25-43, 1263-1280, 1298-1310)

Each load reads an optional raw string for its key and structurally
decodes it; the raw read result and the decode function are explicit
parameters (serde JSON decoding itself is kept abstract). Any failure
falls through to the documented default. -/

/-- default_settings (main.rs lines 25-30). -/
def default_settings : AppSettings :=
  { currency_code := "PHP", currency_symbol := "₱" }

/-- The default used when the saving-goal key is absent or undecodable
(main.rs lines 1274-1279). -/
def default_goal : SavingGoalState :=
  { title := "New Goal", target_amount := 0, target_date := "", contributions := [] }

/-- load_settings (main.rs lines 32-43). -/
def load_settings (raw : Option String)
    (decode : String → Option AppSettings) : AppSettings :=
  match raw with
  | some r =>
      match decode r with
      | some s => s
      | none => default_settings
  | none => default_settings

/-- load_saving_goal (main.rs lines 1263-1280). -/
def load_saving_goal (raw : Option String)
    (decode : String → Option SavingGoalState) : SavingGoalState :=
  match raw with
  | some r =>
      match decode r with
      | some g => g
      | none => default_goal
  | none => default_goal

/-- load_budgets (main.rs lines 1298-1310). -/
def load_budgets (raw : Option String)
    (decode : String → Option (List BudgetItem)) : List BudgetItem :=
  match raw with
  | some r =>
      match decode r with
      | some items => items
      | none => []
  | none => []

/-! ## Budget upsert (main.rs lines 820-850) -/

/-- ASCII lower-casing of one character (`to_ascii_lowercase`). -/
def lower_ascii (c : Char) : Char :=
  if 'A' ≤ c ∧ c ≤ 'Z' then Char.ofNat (c.toNat + 32) else c

/-- `str::eq_ignore_ascii_case`. -/
def eq_ignore_ascii_case (a b : String) : Prop :=
  a.data.map lower_ascii = b.data.map lower_ascii

instance : ∀ a b, Decidable (eq_ignore_ascii_case a b) := fun a b =>
  inferInstanceAs (Decidable (a.data.map lower_ascii = b.data.map lower_ascii))

/-- The mutation inside on_add_budget (main.rs lines 834-842):
`iter_mut().find(|b| b.category.eq_ignore_ascii_case(&category))` updates
the first case-insensitive match's `limit` in place; with no match a new
item is pushed at the end. -/
def upsert_budget : List BudgetItem → String → Int → List BudgetItem
  | [], category, limit => [{ category := category, limit := limit }]
  | b :: rest, category, limit =>
      if eq_ignore_ascii_case b.category category then
        { category := b.category, limit := limit } :: rest
      else b :: upsert_budget rest category limit

/-- on_add_budget (main.rs lines 820-850), on the trimmed category input
and the raw limit input. Returns the next collection, the value written
to local storage by `save_budgets` (if any) and the error message (if
any). -/
def on_add_budget (budgets : List BudgetItem) (catInput limInput : String) :
    List BudgetItem × Option (List BudgetItem) × Option String :=
  let category := trimWS catInput
  let limit := parse_or_zero (trimWS limInput)
  if category = "" ∨ limit ≤ 0 then
    (budgets, none, some "Enter a category and a positive limit.")
  else
    let next := upsert_budget budgets category limit
    (next, some next, none)

/-- Case-insensitive uniqueness of the categories in a budget collection
(spec §3 invariant). -/
def uniqueIC (budgets : List BudgetItem) : Prop :=
  budgets.Pairwise fun a b => ¬eq_ignore_ascii_case a.category b.category

/-! ## Savings page: add_contribution (main.rs lines 1631-1689) -/

/-- add_contribution: parse the amount (`unwrap_or(0)`), reject
non-positive values, otherwise prepend the entry, persist the goal and
build the companion remote payload (category "Savings", negated amount).
Returns (next goal, value written by save_saving_goal, remote payload). -/
def add_contribution (g : SavingGoalState)
    (contrib_date contrib_amount contrib_desc : String) :
    SavingGoalState × Option SavingGoalState × Option TransactionPayload :=
  let parsed := parse_or_zero contrib_amount
  if parsed ≤ 0 then (g, none, none)
  else
    let entry : Contribution :=
      { date := contrib_date
        description := if contrib_desc = "" then "Contribution" else contrib_desc
        amount := parsed }
    let next := { g with contributions := entry :: g.contributions }
    let desc_val := if contrib_desc = "" then "Savings" else contrib_desc
    (next,
      some next,
      some { date := contrib_date, description := desc_val,
             category := "Savings", amount := -parsed })

/-- The goal state after the whole add-contribution flow, including the
spawned remote write (main.rs lines 1664-1688): the async block ends in
`let _ = builder.send().await`, with no code path that touches the goal,
so the final goal is the locally updated one whatever the remote outcome
`remote_ok` was. -/
def savings_page_goal_after (g : SavingGoalState)
    (contrib_date contrib_amount contrib_desc : String)
    (remote_ok : Bool) : SavingGoalState :=
  match remote_ok with
  | true => (add_contribution g contrib_date contrib_amount contrib_desc).1
  | false => (add_contribution g contrib_date contrib_amount contrib_desc).1

/-! ## Create-transaction submit flows -/

/-- Outcome of one POST to the transaction ledger, as the handlers
distinguish them: the request body failed to build
(`builder.json(..)` returned `Err`), the send failed
(network/transport error), the response was non-success, the success
response failed to decode as a `Transaction`, or a created `Transaction`
was decoded. -/
inductive PostOutcome where
  | buildError
  | transportError
  | httpError
  | decodeError
  | created (tx : Transaction)
deriving DecidableEq

/-- The dashboard add-transaction form state (main.rs lines 284-302):
only the cells the submit handler touches. -/
structure DashFormState where
  transactions : List Transaction
  form_date : String
  form_description : String
  form_category : String
  form_amount : String
  form_error : Option String
  form_success : Option String
  saving : Bool
deriving DecidableEq

/-- on_submit of the dashboard page (main.rs lines 400-533), as a function
of the current state and of the POST outcome. Validation failures return
before any network call; otherwise the handler clears the messages, sets
the saving gate, and the async block runs: `builder.json` errors and
`send` errors hit a bare `return` (lines 474-483), a non-success response
sets an error and releases the gate (lines 485-489), a decode failure
sets an error and releases the gate (lines 527-530), and a created
transaction is prepended, the form cleared and the gate released (lines
491-526; the summary refetch touches no field modelled here). -/
def dashboard_on_submit (s : DashFormState) (o : PostOutcome) : DashFormState :=
  let date_val := trimWS s.form_date
  let desc_val := trimWS s.form_description
  let category_val := trimWS s.form_category
  let amount_val := trimWS s.form_amount
  if date_val = "" ∨ desc_val = "" ∨ category_val = "" ∨ amount_val = "" then
    { s with form_error := some "Please complete all fields." }
  else
    let amount := parse_or_zero amount_val
    if amount = 0 then
      { s with form_error := some "Amount must be a non-zero number." }
    else
      let s1 := { s with form_error := none, form_success := none, saving := true }
      match o with
      | .buildError => s1
      | .transportError => s1
      | .httpError =>
          { s1 with form_error := some "Could not save the transaction."
                    saving := false }
      | .decodeError =>
          { s1 with form_error := some "Could not read the saved transaction."
                    saving := false }
      | .created tx =>
          { s1 with transactions := tx :: s1.transactions
                    form_date := ""
                    form_description := ""
                    form_category := ""
                    form_amount := ""
                    form_success := some "Transaction saved."
                    saving := false }

/-- The income add form state (main.rs lines 985-993). -/
structure IncomeFormState where
  incomes : List Transaction
  form_date : String
  form_description : String
  form_category : String
  form_amount : String
  form_error : Option String
  saving : Bool
deriving DecidableEq

/-- on_add of the income page (main.rs lines 1034-1114): validation as on
the dashboard but requiring a strictly positive amount; in the async
block a `builder.json` error hits a bare `return` before the trailing
`saving.set(false)`, while transport errors, non-success responses and
decode failures all fall through to it silently (no error message is ever
set there); a created transaction is prepended and the form reset. -/
def income_on_add (s : IncomeFormState) (o : PostOutcome) : IncomeFormState :=
  let date_val := trimWS s.form_date
  let desc_val := trimWS s.form_description
  let cat_val := trimWS s.form_category
  let amt_val := trimWS s.form_amount
  if date_val = "" ∨ desc_val = "" ∨ cat_val = "" ∨ amt_val = "" then
    { s with form_error := some "Please complete all fields." }
  else
    let parsed := parse_or_zero amt_val
    if parsed ≤ 0 then
      { s with form_error := some "Amount must be a positive number." }
    else
      let s1 := { s with form_error := none, saving := true }
      match o with
      | .buildError => s1
      | .transportError => { s1 with saving := false }
      | .httpError => { s1 with saving := false }
      | .decodeError => { s1 with saving := false }
      | .created tx =>
          { s1 with incomes := tx :: s1.incomes
                    form_date := ""
                    form_amount := ""
                    form_category := "Salary"
                    form_description := ""
                    saving := false }

/-! ## Top categories (main.rs lines 803-806 and 879)

The budget page collects the spend map into a vector with
`totals.into_iter().collect()` — the iteration order of a std `HashMap`
is unspecified, so that vector is modelled as an arbitrary permutation
`enum` of the first-seen-order entries — then runs the stable
`sort_by(|a, b| b.1.cmp(&a.1))` (descending by total, ties keeping the
pre-sort order) and displays `take(5)`. A stable sort's output is
determined by the comparator and the input order, so it is modelled
extensionally by an insertion sort with the same comparator. -/

/-- The sort order of `sort_by(|a, b| b.1.cmp(&a.1))`: descending by
total. -/
def ge2 (a b : String × Int) : Prop := b.2 ≤ a.2

instance : DecidableRel ge2 := fun a b =>
  inferInstanceAs (Decidable (b.2 ≤ a.2))

instance : IsTotal (String × Int) ge2 := ⟨fun a b => le_total b.2 a.2⟩

instance : IsTrans (String × Int) ge2 := ⟨fun _ _ _ hab hbc => le_trans hbc hab⟩

/-- The stable descending sort of the collected vector. -/
def sort_desc (l : List (String × Int)) : List (String × Int) :=
  l.insertionSort ge2

/-- The displayed top-categories listing: sort the collected vector and
truncate (the page uses `n = 5`). -/
def top_categories (enum : List (String × Int)) (n : Nat) :
    List (String × Int) :=
  (sort_desc enum).take n

/-! ## Concrete scenario inputs -/

/-- One transaction spending 800 on Food (spec §8 overspend scenario). -/
def txs800 : List Transaction :=
  [{ id := none, date := "2024-01-01", description := "groceries",
     category := "Food", amount := -800 }]

/-- The Food budget with limit 500 (spec §8 overspend scenario). -/
def b500 : BudgetItem := { category := "Food", limit := 500 }

/-- A goal that is oversaved: target 100, one contribution of 200. -/
def goalOver : SavingGoalState :=
  { title := "G", target_amount := 100, target_date := "",
    contributions := [{ date := "2024-01-01", description := "over", amount := 200 }] }

/-- The spec §8 goal scenario: target 10000, contributions summing to 3000. -/
def goal30 : SavingGoalState :=
  { title := "Trip", target_amount := 10000, target_date := "",
    contributions := [{ date := "2024-02-01", description := "start", amount := 3000 }] }

/-- The spec §8 category-spend scenario transactions. -/
def txsScenario : List Transaction :=
  [{ id := none, date := "2024-01-01", description := "a", category := "Food", amount := -500 },
   { id := none, date := "2024-01-02", description := "b", category := "Food", amount := -300 },
   { id := none, date := "2024-01-03", description := "c", category := "Salary", amount := 1000 }]

/-- A dashboard form state holding a valid submission. -/
def dashS0 : DashFormState :=
  { transactions := [], form_date := "2024-01-01", form_description := "Lunch",
    form_category := "Food", form_amount := "100",
    form_error := none, form_success := none, saving := false }

/-- An income form state holding a valid submission. -/
def incomeS0 : IncomeFormState :=
  { incomes := [], form_date := "2024-01-01", form_description := "Wage",
    form_category := "Salary", form_amount := "100",
    form_error := none, saving := false }

/-- A goal to contribute to. -/
def goalT : SavingGoalState :=
  { title := "Trip", target_amount := 10000, target_date := "2025-01-01",
    contributions := [] }

/-- A budget collection with two categories. -/
def budgetsW : List BudgetItem :=
  [{ category := "Food", limit := 100 }, { category := "Rent", limit := 300 }]

/-- Two categories with tied spend totals, Food seen first. -/
def txsTie : List Transaction :=
  [{ id := none, date := "d1", description := "x", category := "Food", amount := -100 },
   { id := none, date := "d2", description := "y", category := "Transport", amount := -100 }]

/-- A legal enumeration of the tied spend map (the `HashMap` iteration
order is unspecified) listing Transport before Food. -/
def enumTie : List (String × Int) := [("Transport", 100), ("Food", 100)]

/-- Two categories with distinct spend totals. -/
def txsDistinct : List Transaction :=
  [{ id := none, date := "d1", description := "x", category := "Food", amount := -500 },
   { id := none, date := "d2", description := "y", category := "Transport", amount := -300 }]

/-- A legal enumeration of the distinct-total spend map listing Transport
before Food. -/
def enumDistinct : List (String × Int) := [("Transport", 300), ("Food", 500)]

/-! # Lemmas about the spend map -/

theorem lookup_spent_bumpEntry (m : List (String × Int)) (cat c : String) (a : Int) :
    lookup_spent (bumpEntry m cat a) c
      = lookup_spent m c + (if cat = c then a else 0) := by
  induction m with
  | nil => by_cases h : cat = c <;> simp [bumpEntry, lookup_spent, h]
  | cons p rest ih =>
      obtain ⟨c0, v⟩ := p
      by_cases h1 : c0 = cat
      · subst h1
        by_cases h2 : c0 = c
        · subst h2; simp [bumpEntry, lookup_spent]
        · simp [bumpEntry, lookup_spent, h2]
      · by_cases h2 : c0 = c
        · subst h2
          have hcc : ¬cat = c0 := fun h => h1 h.symm
          simp [bumpEntry, lookup_spent, h1, hcc]
        · simp [bumpEntry, lookup_spent, h1, h2, ih]

theorem spendSum_nil (c : String) : spendSum [] c = 0 := rfl

theorem spendSum_cons (t : Transaction) (txs : List Transaction) (c : String) :
    spendSum (t :: txs) c
      = (if t.amount < 0 ∧ t.category = c then |t.amount| else 0) + spendSum txs c := by
  by_cases h : t.amount < 0 ∧ t.category = c <;>
    simp [spendSum, List.filter_cons, h]

theorem lookup_spent_foldl (txs : List Transaction) (m : List (String × Int))
    (c : String) :
    lookup_spent
        (txs.foldl
          (fun m tx =>
            if tx.amount < 0 then bumpEntry m tx.category |tx.amount| else m)
          m)
        c
      = lookup_spent m c + spendSum txs c := by
  induction txs generalizing m with
  | nil => simp [spendSum]
  | cons t txs ih =>
      rw [List.foldl_cons, ih, spendSum_cons]
      by_cases h : t.amount < 0
      · by_cases h2 : t.category = c
        · simp only [h, if_true, lookup_spent_bumpEntry, h2, if_pos, true_and]
          ring
        · simp only [h, if_true, lookup_spent_bumpEntry, h2, if_neg, and_false,
            if_false, add_zero, zero_add]
      · simp [h]

theorem lookup_categoryTotals (txs : List Transaction) (c : String) :
    lookup_spent (categoryTotals txs) c = spendSum txs c := by
  have h := lookup_spent_foldl txs [] c
  simpa [categoryTotals, lookup_spent] using h

theorem bumpEntry_nonneg (m : List (String × Int)) (cat : String) (a : Int)
    (hm : ∀ p ∈ m, 0 ≤ p.2) (ha : 0 ≤ a) :
    ∀ p ∈ bumpEntry m cat a, 0 ≤ p.2 := by
  induction m with
  | nil => simpa [bumpEntry] using ha
  | cons q rest ih =>
      obtain ⟨c0, v⟩ := q
      by_cases h : c0 = cat
      · intro p hp
        rcases List.mem_cons.1 (by simpa [bumpEntry, h] using hp) with rfl | hp'
        · have hv : (0 : Int) ≤ v := hm (c0, v) (List.mem_cons_self _ _)
          simpa using add_nonneg hv ha
        · exact hm p (List.mem_cons_of_mem _ hp')
      · intro p hp
        rcases List.mem_cons.1 (by simpa [bumpEntry, h] using hp) with rfl | hp'
        · exact hm (c0, v) (List.mem_cons_self _ _)
        · exact ih (fun q hq => hm q (List.mem_cons_of_mem _ hq)) p hp'

theorem categoryTotals_foldl_nonneg (txs : List Transaction) :
    ∀ m : List (String × Int), (∀ p ∈ m, 0 ≤ p.2) →
      ∀ p ∈ txs.foldl
          (fun m tx =>
            if tx.amount < 0 then bumpEntry m tx.category |tx.amount| else m)
          m,
        0 ≤ p.2 := by
  induction txs with
  | nil => intro m hm; simpa using hm
  | cons t txs ih =>
      intro m hm
      rw [List.foldl_cons]
      by_cases h : t.amount < 0
      · simp only [h, if_true]
        exact ih _ (bumpEntry_nonneg m t.category |t.amount| hm (abs_nonneg _))
      · simp only [h, if_false]
        exact ih _ hm

theorem categoryTotals_nonneg (txs : List Transaction) :
    ∀ p ∈ categoryTotals txs, 0 ≤ p.2 :=
  categoryTotals_foldl_nonneg txs [] (by simp)

/-! # Claim theorems -/

/-- C1 (amended): for every transaction list and budget item, the derived
spend equals the spec's per-category sum; the dashboard's remaining is
`limit - spent` (negative when overspent); the budget page's remaining is
clamped to `max (limit - spent) 0`; both pages' percent is
`round(spent / limit * 100)` when `limit > 0` and `0` otherwise; and a
budget is counted overspent on the dashboard exactly when
`spent > limit`. -/
theorem budget_status_spec (txs : List Transaction) (b : BudgetItem)
    (budgets : List BudgetItem) :
    lookup_spent (categoryTotals txs) b.category = spendSum txs b.category
    ∧ dash_remaining txs b = b.limit - spendSum txs b.category
    ∧ page_remaining txs b = max (b.limit - spendSum txs b.category) 0
    ∧ dash_percent txs b = percent_used (spendSum txs b.category) b.limit
    ∧ page_percent txs b = percent_used (spendSum txs b.category) b.limit
    ∧ overspent_count txs budgets
        = (budgets.filter fun x => x.limit < spendSum txs x.category).length := by
  refine ⟨lookup_categoryTotals txs b.category, ?_, ?_, ?_, ?_, ?_⟩
  · rw [dash_remaining, lookup_categoryTotals]
  · rw [page_remaining, lookup_categoryTotals]
  · rw [dash_percent, lookup_categoryTotals]
  · rw [page_percent, lookup_categoryTotals]
  · rw [overspent_count]
    simp only [lookup_categoryTotals]

/-- C1 counterexample: at the spec's own overspend scenario (limit 500,
spend 800) the budget page's displayed remaining is 0, not the claimed
`limit - spent = -300`; only the dashboard computes -300. -/
theorem budget_page_remaining_clamped :
    page_remaining txs800 b500 = 0
    ∧ dash_remaining txs800 b500 = -300
    ∧ b500.limit - lookup_spent (categoryTotals txs800) b500.category = -300
    ∧ page_remaining txs800 b500
        ≠ b500.limit - lookup_spent (categoryTotals txs800) b500.category := by
  decide

/-- C3: the spend map assigns to every category the sum of `|amount|`
over exactly its negative-amount transactions (absent categories read as
0, so income contributes nothing), and every value stored in the map is
non-negative. -/
theorem categorySpend_spec (txs : List Transaction) :
    (∀ c, lookup_spent (categoryTotals txs) c = spendSum txs c)
    ∧ ∀ p ∈ categoryTotals txs, 0 ≤ p.2 :=
  ⟨lookup_categoryTotals txs, categoryTotals_nonneg txs⟩

/-- C3 witness: the spec §8 scenario evaluates to Food ↦ 800, Salary
absent (0), and a non-negative stored value. -/
theorem categorySpend_spec_witness :
    lookup_spent (categoryTotals txsScenario) "Food" = 800
    ∧ lookup_spent (categoryTotals txsScenario) "Salary" = 0
    ∧ (0 : Int) ≤ 800 := by
  refine ⟨?_, ?_, ?_⟩
  · rw [(categorySpend_spec txsScenario).1 "Food"]; decide
  · rw [(categorySpend_spec txsScenario).1 "Salary"]; decide
  · exact (categorySpend_spec txsScenario).2 ("Food", 800) (by decide)

theorem goal_saved_nonneg (g : SavingGoalState)
    (h : ∀ c ∈ g.contributions, 0 ≤ c.amount) : 0 ≤ goal_saved g := by
  apply List.sum_nonneg
  intro x hx
  obtain ⟨c, hc, rfl⟩ := List.mem_map.1 hx
  exact h c hc

/-- C2 (amended): for every goal whose contributions are non-negative
(the data-model invariant), the dashboard's goal progress is clamped to
[0,1], is 0 when the target is non-positive, is `min(saved/target, 1)`
(hence 1 whenever `saved ≥ target > 0`) when the target is positive, and
its displayed percent never exceeds 100. The savings page's own progress
is the unclamped quotient (see the counterexample). -/
theorem goal_progress_clamped (g : SavingGoalState)
    (h : ∀ c ∈ g.contributions, 0 ≤ c.amount) :
    0 ≤ dash_goal_progress g ∧ dash_goal_progress g ≤ 1
    ∧ (g.target_amount ≤ 0 → dash_goal_progress g = 0)
    ∧ (0 < g.target_amount →
        dash_goal_progress g = min ((goal_saved g : ℚ) / (g.target_amount : ℚ)) 1)
    ∧ (0 < g.target_amount → g.target_amount ≤ goal_saved g →
        dash_goal_progress g = 1)
    ∧ dash_goal_percent g ≤ 100 := by
  have hs : (0 : ℚ) ≤ (goal_saved g : ℚ) := by
    exact_mod_cast goal_saved_nonneg g h
  have h0 : 0 ≤ dash_goal_progress g := by
    rw [dash_goal_progress]
    by_cases ht : 0 < g.target_amount
    · rw [if_pos ht]
      have htq : (0 : ℚ) ≤ (g.target_amount : ℚ) := by exact_mod_cast ht.le
      exact le_min (div_nonneg hs htq) zero_le_one
    · rw [if_neg ht]
  have h1 : dash_goal_progress g ≤ 1 := by
    rw [dash_goal_progress]
    by_cases ht : 0 < g.target_amount
    · rw [if_pos ht]; exact min_le_right _ _
    · rw [if_neg ht]; exact zero_le_one
  refine ⟨h0, h1, ?_, ?_, ?_, ?_⟩
  · intro ht; rw [dash_goal_progress, if_neg (not_lt.2 ht)]
  · intro ht; rw [dash_goal_progress, if_pos ht]
  · intro ht hge
    rw [dash_goal_progress, if_pos ht]
    have htq : (0 : ℚ) < (g.target_amount : ℚ) := by exact_mod_cast ht
    have hq : (1 : ℚ) ≤ (goal_saved g : ℚ) / (g.target_amount : ℚ) := by
      rw [le_div_iff₀ htq, one_mul]
      exact_mod_cast hge
    exact min_eq_right hq
  · rw [dash_goal_percent, truncQ,
      if_pos (mul_nonneg h0 (by norm_num : (0 : ℚ) ≤ 100))]
    have hle : dash_goal_progress g * 100 ≤ 100 := by
      calc dash_goal_progress g * 100 ≤ 1 * 100 :=
            mul_le_mul_of_nonneg_right h1 (by norm_num)
        _ = 100 := one_mul 100
    calc ⌊dash_goal_progress g * 100⌋ ≤ ⌊(100 : ℚ)⌋ := Int.floor_le_floor hle
      _ = 100 := by norm_num

/-- C2 witness: the spec §8 goal scenario (target 10000, saved 3000) has
dashboard progress in [0,1] and a displayed percent of at most 100. -/
theorem goal_progress_clamped_witness :
    0 ≤ dash_goal_progress goal30 ∧ dash_goal_progress goal30 ≤ 1
    ∧ dash_goal_percent goal30 ≤ 100 := by
  have h := goal_progress_clamped goal30 (by decide)
  exact ⟨h.1, h.2.1, h.2.2.2.2.2⟩

/-- C2 counterexample: for an oversaved goal (target 100, saved 200) the
savings page's derived progress is 2 (outside [0,1]) and its displayed
percent-complete is 200 > 100 — only the ring geometry is clamped
there. -/
theorem savings_progress_unclamped :
    1 < savings_progress goalOver ∧ savings_percent goalOver = 200
    ∧ 100 < savings_percent goalOver := by
  have h2 : savings_percent goalOver = 200 := by
    simp only [savings_percent, savings_progress, roundAway, goal_saved, goalOver]
    norm_num
  refine ⟨?_, h2, ?_⟩
  · show (1 : ℚ) < savings_progress goalOver
    simp only [savings_progress, goal_saved, goalOver]
    norm_num
  · rw [h2]; norm_num

/-- C4: the claim says every POST failure surfaces an error and releases
the saving gate with the list unchanged. Evaluating the handlers: the
dashboard, on a transport error from a valid submission, returns early
with no error message and the gate still engaged (only the non-success
branch behaves as claimed); the income form releases the gate on every
failure but never sets an error message. The list is unchanged in every
failure case. -/
theorem create_failure_handling_eval :
    (dashboard_on_submit dashS0 .transportError).transactions = dashS0.transactions
    ∧ (dashboard_on_submit dashS0 .transportError).form_error = none
    ∧ (dashboard_on_submit dashS0 .transportError).saving = true
    ∧ (dashboard_on_submit dashS0 .httpError).form_error
        = some "Could not save the transaction."
    ∧ (dashboard_on_submit dashS0 .httpError).saving = false
    ∧ (dashboard_on_submit dashS0 .httpError).transactions = dashS0.transactions
    ∧ (income_on_add incomeS0 .httpError).incomes = incomeS0.incomes
    ∧ (income_on_add incomeS0 .httpError).form_error = none
    ∧ (income_on_add incomeS0 .httpError).saving = false
    ∧ (income_on_add incomeS0 .transportError).form_error = none := by
  decide

/-- C5: adding a contribution whose amount parses to a positive value
prepends the entry to the goal's contributions, leaves the other goal
fields unchanged, persists exactly the updated goal, emits the companion
remote payload with category "Savings" and the negated amount, and the
final local goal is the updated one whatever the remote outcome (no
rollback path exists). -/
theorem add_contribution_spec (g : SavingGoalState) (d a desc : String)
    (h : 0 < parse_or_zero a) :
    (add_contribution g d a desc).1.contributions
      = { date := d,
          description := if desc = "" then "Contribution" else desc,
          amount := parse_or_zero a } :: g.contributions
    ∧ (add_contribution g d a desc).1.title = g.title
    ∧ (add_contribution g d a desc).1.target_amount = g.target_amount
    ∧ (add_contribution g d a desc).1.target_date = g.target_date
    ∧ (add_contribution g d a desc).2.1 = some (add_contribution g d a desc).1
    ∧ (add_contribution g d a desc).2.2
        = some { date := d,
                 description := if desc = "" then "Savings" else desc,
                 category := "Savings", amount := -(parse_or_zero a) }
    ∧ ∀ remote_ok : Bool,
        savings_page_goal_after g d a desc remote_ok
          = (add_contribution g d a desc).1 := by
  have hn : ¬parse_or_zero a ≤ 0 := not_le.2 h
  refine ⟨?_, ?_, ?_, ?_, ?_, ?_, ?_⟩
  · simp [add_contribution, hn]
  · simp [add_contribution, hn]
  · simp [add_contribution, hn]
  · simp [add_contribution, hn]
  · simp [add_contribution, hn]
  · simp [add_contribution, hn]
  · intro remote_ok
    cases remote_ok <;> rfl

/-- C5 witness: contributing 500 to an empty goal records the entry
locally and emits the Savings payload for -500. -/
theorem add_contribution_spec_witness :
    (add_contribution goalT "2024-01-01" "500" "").1.contributions
      = [{ date := "2024-01-01", description := "Contribution", amount := 500 }]
    ∧ (add_contribution goalT "2024-01-01" "500" "").2.2
      = some { date := "2024-01-01", description := "Savings",
               category := "Savings", amount := -500 } := by
  obtain ⟨h1, _, _, _, _, h6, _⟩ :=
    add_contribution_spec goalT "2024-01-01" "500" "" (by decide)
  constructor
  · rw [h1]; decide
  · rw [h6]; decide

/-! # Lemmas about the comma grouping -/

theorem comma_group_shift (cs : List Char) :
    ∀ i : Nat, 0 < i → comma_group cs (i + 3) = comma_group cs i := by
  induction cs with
  | nil => intro i _; rfl
  | cons c cs ih =>
      intro i hi
      have hc : (0 < i + 3 ∧ (i + 3) % 3 = 0) = (0 < i ∧ i % 3 = 0) := by
        apply propext
        constructor <;> intro hx <;> omega
      simp only [comma_group, hc]
      rw [show i + 3 + 1 = (i + 1) + 3 by omega, ih (i + 1) (Nat.succ_pos i)]

theorem comma_group_eq_group3 : ∀ cs : List Char, comma_group cs 0 = group3_rev cs
  | [] => rfl
  | [a] => by norm_num [comma_group, group3_rev]
  | [a, b] => by norm_num [comma_group, group3_rev]
  | [a, b, c] => by norm_num [comma_group, group3_rev]
  | a :: b :: c :: d :: rest => by
      have ih := comma_group_eq_group3 (d :: rest)
      simp only [comma_group, group3_rev] at ih ⊢
      norm_num
      rw [show (4 : Nat) = 1 + 3 from rfl, comma_group_shift rest 1 Nat.one_pos]
      exact ih

/-- On a non-negative value the code's `format_with_commas` is exactly the
spec-side grouping of the magnitude's digits. -/
theorem format_with_commas_nonneg (v : Int) (hv : 0 ≤ v) :
    format_with_commas v = group_digits_spec v.natAbs := by
  have hne : v ≠ intMin := by
    intro h
    rw [h] at hv
    norm_num [intMin] at hv
  have h1 : i64abs v = |v| := by rw [i64abs, if_neg hne]
  have h2 : int_to_string (i64abs v) = String.mk (natDigitsRev v.natAbs).reverse := by
    rw [h1, int_to_string, if_neg (not_lt.2 (abs_nonneg v))]
    simp [Int.natAbs_abs]
  rw [format_with_commas]
  simp only [h2, if_neg (not_lt.2 hv)]
  rw [group_digits_spec]
  rw [List.reverse_reverse, comma_group_eq_group3]

/-- C6 (amended): for every i64 amount other than `i64::MIN` (where the
`abs` overflows) and every symbol, `format_currency` produces exactly the
claimed shape: a "-" prefix iff the amount is negative, the symbol, a
space, the absolute value's digits grouped in threes from the
least-significant end, and the ".00" suffix. -/
theorem format_currency_shape (amount : Int) (symbol : String)
    (h : intMin < amount) :
    format_currency amount symbol = format_currency_spec amount symbol := by
  have hne : amount ≠ intMin := ne_of_gt h
  rw [format_currency, format_currency_spec, i64abs, if_neg hne,
    format_with_commas_nonneg |amount| (abs_nonneg amount), Int.natAbs_abs]

/-- C6 witness: the claimed example `format(-1234567, "₱")`. -/
theorem format_currency_shape_witness :
    format_currency (-1234567) "₱" = "-₱ 1,234,567.00" := by
  rw [format_currency_shape (-1234567) "₱" (by decide)]
  decide

/-- C6 counterexample: at `amount = i64::MIN` the wrap of `abs` makes the
code emit an inner minus sign instead of the absolute value's digits, so
the claimed format (produced by the spec-side definition) does not hold
there; under debug assertions the call panics instead. -/
theorem format_currency_min_counterexample :
    format_currency intMin "$" = "-$ --9,223,372,036,854,775,808.00"
    ∧ format_currency_spec intMin "$" = "-$ 9,223,372,036,854,775,808.00"
    ∧ format_currency intMin "$" ≠ format_currency_spec intMin "$" := by
  decide

/-- C9 (amended): the formatter is total and pure for every i64 amount
except `i64::MIN`: the overflow-checked evaluation succeeds and returns
the same display string as the wrapping evaluation. At `i64::MIN` the
`abs` overflows (a panic under checked arithmetic — see the
counterexample), so totality "including i64::MIN" fails. -/
theorem format_currency_total (amount : Int) (symbol : String)
    (h1 : intMin < amount) (_h2 : amount ≤ 2 ^ 63 - 1) :
    format_currency_checked amount symbol = some (format_currency amount symbol) := by
  have hne : amount ≠ intMin := ne_of_gt h1
  have habs : |amount| ≠ intMin := by
    intro hc
    have := abs_nonneg amount
    rw [hc] at this
    norm_num [intMin] at this
  rw [format_currency_checked, if_neg hne, format_with_commas_checked,
    if_neg habs, format_currency, i64abs, if_neg hne]
  rfl

/-- C9 witness: the checked formatter succeeds at 0. -/
theorem format_currency_total_witness :
    format_currency_checked 0 "$" = some "$ 0.00" := by
  rw [format_currency_total 0 "$" (by decide) (by decide)]
  decide

/-- C9 counterexample: at `i64::MIN` the overflow-checked formatter
panics (returns no string), refuting totality at that input. -/
theorem format_currency_min_panics :
    format_currency_checked intMin "$" = none := by
  decide

/-! # Lemmas about the budget upsert -/

theorem upsert_budget_found (budgets : List BudgetItem) (category : String)
    (limit : Int)
    (h : ∃ b ∈ budgets, eq_ignore_ascii_case b.category category) :
    ∃ pre b post,
      budgets = pre ++ b :: post
      ∧ (∀ x ∈ pre, ¬eq_ignore_ascii_case x.category category)
      ∧ eq_ignore_ascii_case b.category category
      ∧ upsert_budget budgets category limit
          = pre ++ { category := b.category, limit := limit } :: post := by
  induction budgets with
  | nil => simp at h
  | cons b0 rest ih =>
      by_cases h0 : eq_ignore_ascii_case b0.category category
      · exact ⟨[], b0, rest, rfl, by simp, h0, by simp [upsert_budget, h0]⟩
      · have h' : ∃ b ∈ rest, eq_ignore_ascii_case b.category category := by
          obtain ⟨b, hb, hbc⟩ := h
          rcases List.mem_cons.1 hb with rfl | hb'
          · exact absurd hbc h0
          · exact ⟨b, hb', hbc⟩
        obtain ⟨pre, b, post, he, hpre, hbc, hu⟩ := ih h'
        refine ⟨b0 :: pre, b, post, by rw [he, List.cons_append], ?_, hbc, ?_⟩
        · intro x hx
          rcases List.mem_cons.1 hx with rfl | hx'
          · exact h0
          · exact hpre x hx'
        · simp only [upsert_budget, if_neg h0, hu, List.cons_append]

theorem upsert_budget_not_found (budgets : List BudgetItem) (category : String)
    (limit : Int)
    (h : ∀ b ∈ budgets, ¬eq_ignore_ascii_case b.category category) :
    upsert_budget budgets category limit
      = budgets ++ [{ category := category, limit := limit }] := by
  induction budgets with
  | nil => rfl
  | cons b0 rest ih =>
      have h0 : ¬eq_ignore_ascii_case b0.category category :=
        h b0 (List.mem_cons_self _ _)
      simp only [upsert_budget, if_neg h0, List.cons_append]
      rw [ih fun b hb => h b (List.mem_cons_of_mem _ hb)]

theorem uniqueIC_iff_map (l : List BudgetItem) :
    uniqueIC l
      ↔ (l.map fun b => b.category).Pairwise
          fun x y => ¬eq_ignore_ascii_case x y := by
  rw [uniqueIC, List.pairwise_map]

theorem upsert_budget_uniqueIC (budgets : List BudgetItem) (category : String)
    (limit : Int) (hu : uniqueIC budgets) :
    uniqueIC (upsert_budget budgets category limit) := by
  by_cases h : ∃ b ∈ budgets, eq_ignore_ascii_case b.category category
  · obtain ⟨pre, b, post, he, _, _, hres⟩ :=
      upsert_budget_found budgets category limit h
    have hmap : (upsert_budget budgets category limit).map (fun x => x.category)
        = budgets.map fun x => x.category := by
      rw [hres, he]
      simp
    rw [uniqueIC_iff_map, hmap, ← uniqueIC_iff_map]
    exact hu
  · push_neg at h
    rw [upsert_budget_not_found budgets category limit h, uniqueIC]
    rw [List.pairwise_append]
    refine ⟨hu, by simp, ?_⟩
    intro a ha b hb
    have hb' : b = { category := category, limit := limit } := by simpa using hb
    subst hb'
    exact h a ha

/-- C7: upserting a budget with a non-empty trimmed category and a
positive parsed limit persists exactly the updated collection with no
error; when a case-insensitive match exists, the first matching entry's
limit is replaced in place (keeping its original category casing), the
length and the category strings are unchanged; otherwise the new entry is
appended, growing the length by one; and case-insensitive uniqueness of
the categories is preserved. -/
theorem on_add_budget_spec (budgets : List BudgetItem) (catInput limInput : String)
    (hcat : trimWS catInput ≠ "") (hlim : 0 < parse_or_zero (trimWS limInput)) :
    (on_add_budget budgets catInput limInput).2.1
        = some (on_add_budget budgets catInput limInput).1
    ∧ (on_add_budget budgets catInput limInput).2.2 = none
    ∧ ((∃ b ∈ budgets, eq_ignore_ascii_case b.category (trimWS catInput)) →
        ∃ pre b post,
          budgets = pre ++ b :: post
          ∧ (∀ x ∈ pre, ¬eq_ignore_ascii_case x.category (trimWS catInput))
          ∧ eq_ignore_ascii_case b.category (trimWS catInput)
          ∧ (on_add_budget budgets catInput limInput).1
              = pre ++ { category := b.category,
                         limit := parse_or_zero (trimWS limInput) } :: post
          ∧ (on_add_budget budgets catInput limInput).1.length = budgets.length
          ∧ (on_add_budget budgets catInput limInput).1.map (fun x => x.category)
              = budgets.map fun x => x.category)
    ∧ ((∀ b ∈ budgets, ¬eq_ignore_ascii_case b.category (trimWS catInput)) →
        (on_add_budget budgets catInput limInput).1
          = budgets ++ [{ category := trimWS catInput,
                          limit := parse_or_zero (trimWS limInput) }]
        ∧ (on_add_budget budgets catInput limInput).1.length
            = budgets.length + 1)
    ∧ (uniqueIC budgets → uniqueIC (on_add_budget budgets catInput limInput).1) := by
  have hcond : ¬(trimWS catInput = "" ∨ parse_or_zero (trimWS limInput) ≤ 0) := by
    push_neg
    exact ⟨hcat, hlim⟩
  have hr : on_add_budget budgets catInput limInput
      = (upsert_budget budgets (trimWS catInput) (parse_or_zero (trimWS limInput)),
         some (upsert_budget budgets (trimWS catInput)
           (parse_or_zero (trimWS limInput))),
         none) := by
    simp only [on_add_budget, if_neg hcond]
  rw [hr]
  refine ⟨rfl, rfl, ?_, ?_, ?_⟩
  · intro hex
    obtain ⟨pre, b, post, he, hpre, hbc, hres⟩ :=
      upsert_budget_found budgets (trimWS catInput)
        (parse_or_zero (trimWS limInput)) hex
    refine ⟨pre, b, post, he, hpre, hbc, hres, ?_, ?_⟩
    · rw [hres, he]
      simp
    · rw [hres, he]
      simp
  · intro hnone
    have hres := upsert_budget_not_found budgets (trimWS catInput)
      (parse_or_zero (trimWS limInput)) hnone
    exact ⟨hres, by rw [hres]; simp⟩
  · exact upsert_budget_uniqueIC budgets (trimWS catInput)
      (parse_or_zero (trimWS limInput))

/-- C7 witness: upserting "FOOD" with limit 250 into a collection already
holding "Food" keeps the length and persists the result. -/
theorem on_add_budget_spec_witness :
    (on_add_budget budgetsW "FOOD" "250").1.length = budgetsW.length
    ∧ (on_add_budget budgetsW "FOOD" "250").2.1
        = some (on_add_budget budgetsW "FOOD" "250").1 := by
  obtain ⟨hsave, _, hfound, _, _⟩ :=
    on_add_budget_spec budgetsW "FOOD" "250" (by decide) (by decide)
  obtain ⟨_, _, _, _, _, _, _, hlen, _⟩ := hfound (by decide)
  exact ⟨hlen, hsave⟩

/-- C8 (amended): when a key is absent, or present but failing structural
decoding, each load silently returns its documented default: settings
default to the fixed PHP/₱ currency, budgets to the empty collection, and
the saving goal to the zero goal titled "New Goal" (zero target, empty
date, no contributions). -/
theorem load_defaults_spec (rawS rawB rawG : Option String)
    (ds : String → Option AppSettings)
    (db : String → Option (List BudgetItem))
    (dg : String → Option SavingGoalState)
    (hS : rawS = none ∨ ∃ r, rawS = some r ∧ ds r = none)
    (hB : rawB = none ∨ ∃ r, rawB = some r ∧ db r = none)
    (hG : rawG = none ∨ ∃ r, rawG = some r ∧ dg r = none) :
    load_settings rawS ds = default_settings
    ∧ default_settings
        = { currency_code := "PHP", currency_symbol := "₱" }
    ∧ load_budgets rawB db = []
    ∧ load_saving_goal rawG dg = default_goal
    ∧ default_goal
        = { title := "New Goal", target_amount := 0, target_date := "",
            contributions := [] } := by
  refine ⟨?_, rfl, ?_, ?_, rfl⟩
  · rcases hS with rfl | ⟨r, rfl, hd⟩
    · rfl
    · simp [load_settings, hd]
  · rcases hB with rfl | ⟨r, rfl, hd⟩
    · rfl
    · simp [load_budgets, hd]
  · rcases hG with rfl | ⟨r, rfl, hd⟩
    · rfl
    · simp [load_saving_goal, hd]

/-- C8 witness: loading every key from an empty store yields the three
defaults. -/
theorem load_defaults_spec_witness :
    load_settings none (fun _ => none) = default_settings
    ∧ load_budgets none (fun _ => none) = []
    ∧ load_saving_goal none (fun _ => none) = default_goal := by
  obtain ⟨h1, _, h2, h3, _⟩ :=
    load_defaults_spec none none none (fun _ => none) (fun _ => none)
      (fun _ => none) (Or.inl rfl) (Or.inl rfl) (Or.inl rfl)
  exact ⟨h1, h2, h3⟩

/-- C8 counterexample: the saving goal's load default is titled
"New Goal", not the empty title the claim states. -/
theorem load_goal_title_not_empty :
    (load_saving_goal none fun _ => none).title = "New Goal"
    ∧ (load_saving_goal none fun _ => none).title ≠ "" := by
  decide

/-! # Lemmas about the top-categories sort -/

theorem sorted_perm_distinct_eq :
    ∀ {l1 l2 : List (String × Int)}, l1.Perm l2 →
      l1.Sorted ge2 → l2.Sorted ge2 →
      l1.Pairwise (fun p q => p.2 ≠ q.2) → l1 = l2 := by
  intro l1
  induction l1 with
  | nil =>
      intro l2 hp _ _ _
      exact (List.Perm.eq_nil hp.symm).symm
  | cons a t1 ih =>
      intro l2 hp hs1 hs2 hd1
      cases l2 with
      | nil => exact absurd hp.eq_nil (List.cons_ne_nil a t1)
      | cons b t2 =>
          have hab : a = b := by
            by_contra hne
            have ha2 : a ∈ b :: t2 := hp.subset (List.mem_cons_self a t1)
            have hb1 : b ∈ a :: t1 := hp.symm.subset (List.mem_cons_self b t2)
            have ha2' : a ∈ t2 := by
              rcases List.mem_cons.1 ha2 with h | h
              · exact absurd h hne
              · exact h
            have hb1' : b ∈ t1 := by
              rcases List.mem_cons.1 hb1 with h | h
              · exact absurd h.symm hne
              · exact h
            have h1 : ge2 a b := (List.sorted_cons.1 hs1).1 b hb1'
            have h2 : ge2 b a := (List.sorted_cons.1 hs2).1 a ha2'
            exact (List.pairwise_cons.1 hd1).1 b hb1' (le_antisymm h2 h1)
          subst hab
          rw [ih hp.cons_inv (List.sorted_cons.1 hs1).2 (List.sorted_cons.1 hs2).2
            (List.pairwise_cons.1 hd1).2]

/-- C10 (amended): the top-categories listing is the stable descending
sort of the backing map's enumeration, truncated; the enumeration order
of the std `HashMap` is unspecified, so the result is a deterministic
function of the transaction list only when the totals are pairwise
distinct, in which case every legal enumeration yields the same listing
(and it is always sorted descending by total). -/
theorem top_categories_deterministic (txs : List Transaction) (n : Nat)
    (enum : List (String × Int))
    (henum : enum.Perm (categoryTotals txs))
    (hdistinct : (categoryTotals txs).Pairwise fun p q => p.2 ≠ q.2) :
    top_categories enum n = top_categories (categoryTotals txs) n
    ∧ (sort_desc enum).Sorted ge2 := by
  have hs1 : (sort_desc enum).Sorted ge2 := List.sorted_insertionSort ge2 enum
  have hs2 : (sort_desc (categoryTotals txs)).Sorted ge2 :=
    List.sorted_insertionSort ge2 (categoryTotals txs)
  have hp : (sort_desc enum).Perm (sort_desc (categoryTotals txs)) :=
    (List.perm_insertionSort ge2 enum).trans
      (henum.trans (List.perm_insertionSort ge2 (categoryTotals txs)).symm)
  have hd : (sort_desc enum).Pairwise fun p q => p.2 ≠ q.2 := by
    have hperm2 : (sort_desc enum).Perm (categoryTotals txs) :=
      (List.perm_insertionSort ge2 enum).trans henum
    exact (hperm2.pairwise_iff fun h => Ne.symm h).2 hdistinct
  have heq : sort_desc enum = sort_desc (categoryTotals txs) :=
    sorted_perm_distinct_eq hp hs1 hs2 hd
  exact ⟨by rw [top_categories, top_categories, heq], hs1⟩

/-- C10 witness: with distinct totals (Food 500, Transport 300) the
enumeration listing Transport first still yields the canonical
listing. -/
theorem top_categories_deterministic_witness :
    top_categories enumDistinct 5 = top_categories (categoryTotals txsDistinct) 5 :=
  (top_categories_deterministic txsDistinct 5 enumDistinct (by decide) (by decide)).1

/-- C10 counterexample: with tied totals (Food and Transport both 100,
Food first seen) the legal enumeration listing Transport first is a
permutation of the map, yet the stable sort of it puts Transport first,
differing from the first-seen-order result — ties are broken by the
map's unspecified iteration order, not by first-seen insertion order. -/
theorem top_categories_tie_counterexample :
    enumTie.Perm (categoryTotals txsTie)
    ∧ top_categories enumTie 2 ≠ top_categories (categoryTotals txsTie) 2 := by
  decide

end PondoBro

